import Mathlib

/-!
# TalentLens — verification of the candidate ingestion and scoring pipeline

Shallow embedding of the TalentLens backend (`backend/analyzer.py`,
`backend/dev_analyzer.py`, `backend/dev_module.py`, `backend/server.py`).
Python dicts are modelled as association lists with dict semantics
(key overwrite in place, insertion order preserved); JSON values as an
inductive type; `json.loads` as an executable parser over the JSON grammar
used by the repository (objects, arrays, strings with the common escapes,
integer/decimal numbers, `true`/`false`/`null`); external network calls
(Gemini, GitHub, PDF download) as explicit parameters holding the data the
call would have produced.
-/

namespace TalentLens

/-! ## Python string primitives -/

/-- Characters Python's `str.strip()` removes (ASCII whitespace). -/
def pyIsSpace (c : Char) : Bool :=
  c == ' ' || c == '\t' || c == '\n' || c == '\r' || c == '\x0b' || c == '\x0c'

def lstripChars (cs : List Char) : List Char := cs.dropWhile pyIsSpace

def rstripChars (cs : List Char) : List Char :=
  (lstripChars cs.reverse).reverse

def stripChars (cs : List Char) : List Char := rstripChars (lstripChars cs)

/-- Python `s.strip()`. -/
def pyStrip (s : String) : String := ⟨stripChars s.data⟩

/-- Python `s.rstrip()`. -/
def pyRStrip (s : String) : String := ⟨rstripChars s.data⟩

/-- ASCII lower-casing of one character (all the repository's header and
label literals are ASCII). -/
def asciiLower (c : Char) : Char :=
  if 'A' ≤ c && c ≤ 'Z' then Char.ofNat (c.toNat + 32) else c

/-- Python `s.lower()` on ASCII text. -/
def pyLower (s : String) : String := ⟨s.data.map asciiLower⟩

/-- Does `pat` occur at the head of `cs`? -/
def listStartsWith : List Char → List Char → Bool
  | [], _ => true
  | _ :: _, [] => false
  | p :: ps, c :: cs => p == c && listStartsWith ps cs

/-- Index of the first occurrence of `pat` in `cs` (Python `str.find`,
restricted to a found result). -/
def listFind (pat : List Char) : List Char → Option Nat
  | [] => if pat.isEmpty then some 0 else none
  | c :: cs =>
    if listStartsWith pat (c :: cs) then some 0
    else (listFind pat cs).map (· + 1)

/-- Python `needle in hay`. -/
def strContains (hay needle : String) : Bool := (listFind needle.data hay.data).isSome

/-- Python `hay.find(needle, start)` as an `Option`. -/
def strFindFrom (hay needle : String) (start : Nat) : Option Nat :=
  (listFind needle.data (hay.data.drop start)).map (· + start)

/-- Python `hay.find(needle)` as an `Option`. -/
def strFind (hay needle : String) : Option Nat := listFind needle.data hay.data

/-- Python `s.count(c)` for a single character. -/
def charCount (s : String) (c : Char) : Nat := s.data.count c

/-- Python `s.rfind(c)` for a single character, as an `Option`. -/
def charRFind (s : String) (c : Char) : Option Nat :=
  (listFind [c] s.data.reverse).map (fun i => s.data.length - 1 - i)

/-- Python slice `s[a:b]` with `0 ≤ a ≤ b` (clamping like Python). -/
def strSlice (s : String) (a b : Nat) : String := ⟨(s.data.take b).drop a⟩

/-- Python slice `s[a:]`. -/
def strSliceFrom (s : String) (a : Nat) : String := ⟨s.data.drop a⟩

/-- Python `s[:n]`. -/
def strTake (s : String) (n : Nat) : String := ⟨s.data.take n⟩

/-- Python `s.startswith(p)`. -/
def strStartsWith (s p : String) : Bool := listStartsWith p.data s.data

/-- Python `s.endswith(p)`. -/
def strEndsWith (s p : String) : Bool := listStartsWith p.data.reverse s.data.reverse

/-- `c * n` for a character (Python string repetition). -/
def charRepeat (c : Char) (n : Nat) : String := ⟨List.replicate n c⟩

/-! ## JSON values

`Json` models the Python objects produced by `json.loads`: `null`, booleans,
numbers (as decimals `mant / 10 ^ exp10`, covering the integer and decimal
literals the pipeline handles), strings, arrays and objects.  Objects carry
their fields in insertion order with distinct keys, as Python dicts do. -/

inductive Json where
  | null : Json
  | bool (b : Bool) : Json
  | num (mant : Int) (exp10 : Nat) : Json
  | str (s : String) : Json
  | arr (items : List Json) : Json
  | obj (fields : List (String × Json)) : Json
deriving Inhabited

mutual

/-- Structural equality of JSON values (Python `==` restricted to
structurally identical numbers, which is all the development compares). -/
def Json.beq : Json → Json → Bool
  | .null, .null => true
  | .bool a, .bool b => a == b
  | .num m1 e1, .num m2 e2 => m1 == m2 && e1 == e2
  | .str a, .str b => a == b
  | .arr xs, .arr ys => Json.beqList xs ys
  | .obj xs, .obj ys => Json.beqFields xs ys
  | _, _ => false

def Json.beqList : List Json → List Json → Bool
  | [], [] => true
  | x :: xs, y :: ys => Json.beq x y && Json.beqList xs ys
  | _, _ => false

def Json.beqFields : List (String × Json) → List (String × Json) → Bool
  | [], [] => true
  | (k1, v1) :: xs, (k2, v2) :: ys => k1 == k2 && Json.beq v1 v2 && Json.beqFields xs ys
  | _, _ => false

end

instance : BEq Json := ⟨Json.beq⟩

/-- Lookup in an association list (Python `d[k]` / `d.get(k)`; first match,
which is the only match once keys are distinct). -/
def lookupKey {α : Type} : List (String × α) → String → Option α
  | [], _ => none
  | e :: rest, k => if e.1 == k then some e.2 else lookupKey rest k

/-- `d[k] = v` on a dict: overwrite in place if the key exists, else append
(Python dicts keep the original insertion position on overwrite). -/
def insertKey {α : Type} : List (String × α) → String → α → List (String × α)
  | [], k, v => [(k, v)]
  | e :: rest, k, v =>
    if e.1 == k then (k, v) :: rest else e :: insertKey rest k v

/-- Is the key present (Python `k in d`)? -/
def containsKey {α : Type} (l : List (String × α)) (k : String) : Bool :=
  (lookupKey l k).isSome

/-- Field access on a JSON object's field list. -/
def lookupField (fields : List (String × Json)) (k : String) : Option Json :=
  lookupKey fields k

/-- Python truthiness of a JSON-decoded value. -/
def pyTruthy : Json → Bool
  | .null => false
  | .bool b => b
  | .num m _ => m != 0
  | .str s => s != ""
  | .arr xs => !xs.isEmpty
  | .obj fs => !fs.isEmpty

/-! ## `json.loads`

A fuel-indexed recursive-descent parser for the JSON grammar (without
exponent literals, which the pipeline's data never contains).  `jsonLoads`
succeeds exactly when the whole input (modulo surrounding whitespace) is one
JSON value, as Python's `json.loads` does. -/

def skipJsonWs (cs : List Char) : List Char :=
  cs.dropWhile (fun c => c == ' ' || c == '\t' || c == '\n' || c == '\r')

def isHexDigit (c : Char) : Bool :=
  ('0' ≤ c && c ≤ '9') || ('a' ≤ c && c ≤ 'f') || ('A' ≤ c && c ≤ 'F')

def hexVal (c : Char) : Nat :=
  if '0' ≤ c && c ≤ '9' then c.toNat - '0'.toNat
  else if 'a' ≤ c && c ≤ 'f' then c.toNat - 'a'.toNat + 10
  else c.toNat - 'A'.toNat + 10

/-- Parse the body of a JSON string after its opening quote. -/
def parseStringBody (fuel : Nat) (cs : List Char) (acc : List Char) :
    Option (String × List Char) :=
  match fuel with
  | 0 => none
  | fuel + 1 =>
    match cs with
    | [] => none
    | '"' :: rest => some (⟨acc.reverse⟩, rest)
    | '\\' :: esc :: rest =>
      if esc == '"' then parseStringBody fuel rest ('"' :: acc)
      else if esc == '\\' then parseStringBody fuel rest ('\\' :: acc)
      else if esc == '/' then parseStringBody fuel rest ('/' :: acc)
      else if esc == 'n' then parseStringBody fuel rest ('\n' :: acc)
      else if esc == 't' then parseStringBody fuel rest ('\t' :: acc)
      else if esc == 'r' then parseStringBody fuel rest ('\r' :: acc)
      else if esc == 'b' then parseStringBody fuel rest ('\x08' :: acc)
      else if esc == 'f' then parseStringBody fuel rest ('\x0c' :: acc)
      else if esc == 'u' then
        match rest with
        | h1 :: h2 :: h3 :: h4 :: rest' =>
          if isHexDigit h1 && isHexDigit h2 && isHexDigit h3 && isHexDigit h4 then
            let n := ((hexVal h1 * 16 + hexVal h2) * 16 + hexVal h3) * 16 + hexVal h4
            parseStringBody fuel rest' (Char.ofNat n :: acc)
          else none
        | _ => none
      else none
    | '\\' :: [] => none
    | c :: rest =>
      if c.toNat < 32 then none else parseStringBody fuel rest (c :: acc)

def isDigit (c : Char) : Bool := '0' ≤ c && c ≤ '9'

def digitsToNat (ds : List Char) : Nat :=
  ds.foldl (fun acc d => acc * 10 + (d.toNat - '0'.toNat)) 0

/-- Parse a JSON number (integer or decimal) at the head of `cs`. -/
def parseNumber (cs : List Char) : Option (Json × List Char) :=
  let (neg, cs1) := match cs with
    | '-' :: rest => (true, rest)
    | _ => (false, cs)
  let intDigits := cs1.takeWhile isDigit
  let afterInt := cs1.drop intDigits.length
  if intDigits.isEmpty then none
  else if intDigits.length > 1 && intDigits.head? == some '0' then none
  else
    match afterInt with
    | '.' :: rest =>
      let fracDigits := rest.takeWhile isDigit
      if fracDigits.isEmpty then none
      else
        let afterFrac := rest.drop fracDigits.length
        let mant : Int := Int.ofNat (digitsToNat (intDigits ++ fracDigits))
        some (.num (if neg then -mant else mant) fracDigits.length, afterFrac)
    | _ =>
      let mant : Int := Int.ofNat (digitsToNat intDigits)
      some (.num (if neg then -mant else mant) 0, afterInt)

mutual

/-- Parse one JSON value at the head of `cs` (whitespace already skipped). -/
def parseValue (fuel : Nat) (cs : List Char) : Option (Json × List Char) :=
  match fuel with
  | 0 => none
  | fuel + 1 =>
    match cs with
    | [] => none
    | c :: rest =>
      if c == '"' then
        (parseStringBody (rest.length + 1) rest []).map (fun (s, r) => (.str s, r))
      else if c == '{' then parseObjFields fuel (skipJsonWs rest) true
      else if c == '[' then parseArrItems fuel (skipJsonWs rest) true
      else if c == 't' then
        if listStartsWith ['r', 'u', 'e'] rest then some (.bool true, rest.drop 3) else none
      else if c == 'f' then
        if listStartsWith ['a', 'l', 's', 'e'] rest then some (.bool false, rest.drop 4) else none
      else if c == 'n' then
        if listStartsWith ['u', 'l', 'l'] rest then some (.null, rest.drop 3) else none
      else parseNumber (c :: rest)

/-- Parse the fields of an object after `{` (whitespace skipped); `first`
marks whether no field has been read yet. -/
def parseObjFields (fuel : Nat) (cs : List Char) (first : Bool) :
    Option (Json × List Char) :=
  match fuel with
  | 0 => none
  | fuel + 1 =>
    match cs with
    | '}' :: rest =>
      if first then some (.obj [], rest) else none
    | _ => (parseObjTail fuel cs []).map (fun (fs, r) => (.obj fs, r))

/-- Parse `"key": value (, "key": value)* }`, accumulating fields with dict
overwrite semantics. -/
def parseObjTail (fuel : Nat) (cs : List Char) (acc : List (String × Json)) :
    Option (List (String × Json) × List Char) :=
  match fuel with
  | 0 => none
  | fuel + 1 =>
    match cs with
    | '"' :: rest =>
      match parseStringBody (rest.length + 1) rest [] with
      | none => none
      | some (key, r1) =>
        match skipJsonWs r1 with
        | ':' :: r2 =>
          match parseValue fuel (skipJsonWs r2) with
          | none => none
          | some (v, r3) =>
            let acc' := insertKey acc key v
            match skipJsonWs r3 with
            | ',' :: r4 => parseObjTail fuel (skipJsonWs r4) acc'
            | '}' :: r4 => some (acc', r4)
            | _ => none
        | _ => none
    | _ => none

/-- Parse array items after `[` (whitespace skipped). -/
def parseArrItems (fuel : Nat) (cs : List Char) (first : Bool) :
    Option (Json × List Char) :=
  match fuel with
  | 0 => none
  | fuel + 1 =>
    match cs with
    | ']' :: rest =>
      if first then some (.arr [], rest) else none
    | _ => (parseArrTail fuel cs []).map (fun (xs, r) => (.arr xs.reverse, r))

def parseArrTail (fuel : Nat) (cs : List Char) (acc : List Json) :
    Option (List Json × List Char) :=
  match fuel with
  | 0 => none
  | fuel + 1 =>
    match parseValue fuel cs with
    | none => none
    | some (v, r1) =>
      match skipJsonWs r1 with
      | ',' :: r2 => parseArrTail fuel (skipJsonWs r2) (v :: acc)
      | ']' :: r2 => some (v :: acc, r2)
      | _ => none

end

/-- Python `json.loads`: parse the whole text as one JSON value, allowing
surrounding whitespace, failing on trailing data. -/
def jsonLoads (s : String) : Option Json :=
  let cs := skipJsonWs s.data
  match parseValue (s.data.length + 1) cs with
  | none => none
  | some (v, rest) => if (skipJsonWs rest).isEmpty then some v else none

/-! ## `backend/analyzer.py` — tolerant JSON extraction and repair -/

/-- `re.sub(r',\s*$', '', s)`: drop one trailing comma together with the
whitespace after it, if the text ends that way. -/
def subTrailingComma (s : String) : String :=
  let r := pyRStrip s
  if strEndsWith r "," then strTake r (r.data.length - 1) else s

/-- `analyzer._repair_json`: try to repair truncated JSON by closing open
braces/brackets (embeds `backend/analyzer.py` lines 106–146). -/
def repair_json (text0 : String) : Option Json :=
  let text := pyStrip text0
  if !strStartsWith text "\x7b" then none
  else
    let text := subTrailingComma text
    let openBraces : Int := (charCount text '{' : Int) - (charCount text '}' : Int)
    let openBrackets : Int := (charCount text '[' : Int) - (charCount text ']' : Int)
    let direct : Option Json :=
      if openBraces == 0 && openBrackets == 0 then jsonLoads text else none
    match direct with
    | some v => some v
    | none =>
      let repaired := pyRStrip text
      let repaired :=
        if charCount repaired '"' % 2 != 0 then
          match charRFind repaired '"' with
          | some lastQuote => strTake repaired (lastQuote + 1)
          | none => repaired
        else repaired
      let repaired := subTrailingComma repaired
      let repaired := repaired ++ charRepeat ']' openBrackets.toNat
                               ++ charRepeat '}' openBraces.toNat
      jsonLoads repaired

/-- One iteration of the marker loop in `analyzer._parse_json_from_text`:
extract the text after `marker` (tolerating a missing closing fence), try a
direct parse and then the repair pass. -/
def tryMarkerBlock (text marker : String) : Option Json :=
  match strFind text marker with
  | none => none
  | some idx =>
    let s := idx + marker.data.length
    let s := if s < text.data.length && (text.data.drop s).head? == some '\n'
             then s + 1 else s
    let block :=
      match strFindFrom text "```" s with
      | some e => strSlice text s e
      | none => strSliceFrom text s
    let block := pyStrip block
    match jsonLoads block with
    | some v => some v
    | none => repair_json block

/-- Strategy 3 of `analyzer._parse_json_from_text`: take the text from the
first `{`, drop a trailing fence, parse or repair. -/
def tryFirstBrace (text : String) : Option Json :=
  match strFind text "\x7b" with
  | none => none
  | some i =>
    let candidate := strSliceFrom text i
    let candidate :=
      let r := pyRStrip candidate
      if strEndsWith r "```" then strTake r (r.data.length - 3) else candidate
    let candidate := pyStrip candidate
    match jsonLoads candidate with
    | some v => some v
    | none => repair_json candidate

/-- `analyzer._parse_json_from_text` (lines 56–103): direct parse, fenced
block with ```json and ``` markers, then first-brace extraction, each with
the repair pass. -/
def parse_json_from_text (text : String) : Option Json :=
  if pyStrip text == "" then none
  else
    match jsonLoads (pyStrip text) with
    | some v => some v
    | none =>
      match tryMarkerBlock text "```json" with
      | some v => some v
      | none =>
        match tryMarkerBlock text "```" with
        | some v => some v
        | none => tryFirstBrace text

/-! ## `backend/dev_analyzer.py` — parsing, evaluation client, pipeline -/

/-- `dev_analyzer._parse_json` (lines 66–84): direct parse; ```json fenced
block (`text[s:e]` with `e = -1` when no closing fence, i.e. dropping the
final character); then the greedy `\x7b.*\x7d` regex from the first `{` to the
last `}`. -/
def dev_parse_json (text : String) : Option Json :=
  match jsonLoads text with
  | some v => some v
  | none =>
    let fromFence : Option Json :=
      match strFind text "```json" with
      | none => none
      | some idx =>
        let s := idx + 7
        let seg :=
          match strFindFrom text "```" s with
          | some e => strSlice text s e
          | none => strSlice text s (text.data.length - 1)
        jsonLoads (pyStrip seg)
    match fromFence with
    | some v => some v
    | none =>
      match strFind text "\x7b", charRFind text '}' with
      | some i, some j =>
        if i < j then jsonLoads (strSlice text i (j + 1)) else none
      | _, _ => none

/-- One simulated run of `dev_analyzer._gemini_text`: `attempts` holds what
each successive API call would produce (`none` = transport error, `some t` =
response text `t`); up to `retries` attempts are made and the first nonempty
text is returned, else `""`. -/
def gemini_text (retries : Nat) (attempts : List (Option String)) : String :=
  match retries, attempts with
  | 0, _ => ""
  | _ + 1, [] => ""
  | r + 1, a :: rest =>
    match a with
    | some t => if t != "" then t else gemini_text r rest
    | none => gemini_text r rest

/-- The deterministic fallback evaluation of `dev_analyzer.evaluate_candidate`
(lines 393–417). -/
def devFallbackEvaluation : Json :=
  .obj [
    ("overall_rating", .num 30 1),
    ("overall_score", .num 50 0),
    ("metrics", .obj [
      ("technical_depth", .obj [("rating", .num 30 1), ("reasoning", .str "Could not fully evaluate")]),
      ("project_quality", .obj [("rating", .num 30 1), ("reasoning", .str "Could not fully evaluate")]),
      ("experience_relevance", .obj [("rating", .num 30 1), ("reasoning", .str "Could not fully evaluate")]),
      ("github_activity", .obj [("rating", .num 30 1), ("reasoning", .str "Could not fully evaluate")]),
      ("skill_match", .obj [("rating", .num 30 1), ("reasoning", .str "Could not fully evaluate")]),
      ("overall_fit", .obj [("rating", .num 30 1), ("reasoning", .str "Could not fully evaluate")])]),
    ("strengths", .arr [.str "Pending full evaluation"]),
    ("areas_for_improvement", .arr [.str "Pending full evaluation"]),
    ("recommendation", .obj [
      ("decision", .str "CONSIDER"),
      ("confidence", .str "LOW"),
      ("reasoning", .str "Analysis incomplete — could not fully evaluate candidate.")]),
    ("detailed_feedback", .obj [
      ("technical_assessment", .str "Pending evaluation"),
      ("culture_fit", .str "Pending evaluation"),
      ("growth_potential", .str "Pending evaluation"),
      ("salary_alignment", .str "Pending evaluation")])]

/-- `dev_analyzer.evaluate_candidate` (lines 310–417), with the model calls
replaced by their simulated outcomes `attempts`.  A nonempty response that
parses to a nonempty dict is returned as-is — unless its `recommendation`
field exists and is not itself a dict, in which case printing the decision
raises `AttributeError` and the `except` branch yields the fallback.  All
other outcomes yield the deterministic fallback. -/
def evaluate_candidate (attempts : List (Option String)) : Json :=
  if gemini_text 3 attempts == "" then devFallbackEvaluation
  else
    match dev_parse_json (gemini_text 3 attempts) with
    | some (.obj fields) =>
      if fields.isEmpty then devFallbackEvaluation
      else
        match lookupField fields "recommendation" with
        | none => .obj fields
        | some (.obj _) => .obj fields
        | some _ => devFallbackEvaluation
    | _ => devFallbackEvaluation

/-! ### `backend/analyzer.py` — the designer-side final assessment -/

/-- The deterministic fallback analysis of `analyzer.analyze_designer`
(lines 364–390): note its sub-metric ratings are 2.5, not 3.0. -/
def designerFallbackAnalysis : Json :=
  .obj [
    ("overall_rating", .num 25 1),
    ("overall_score", .num 50 0),
    ("metrics", .obj [
      ("design_excellence", .obj [("rating", .num 25 1), ("reasoning", .str "Analysis failed")]),
      ("ux_mastery", .obj [("rating", .num 25 1), ("reasoning", .str "Analysis failed")]),
      ("industry_expertise", .obj [("rating", .num 25 1), ("reasoning", .str "Analysis failed")]),
      ("technical_sophistication", .obj [("rating", .num 25 1), ("reasoning", .str "Analysis failed")]),
      ("innovation_creativity", .obj [("rating", .num 25 1), ("reasoning", .str "Analysis failed")]),
      ("specialization_alignment", .obj [("rating", .num 25 1), ("reasoning", .str "Analysis failed")]),
      ("market_positioning", .obj [("rating", .num 25 1), ("reasoning", .str "Analysis failed")])]),
    ("strengths", .arr [.str "Manual review required"]),
    ("areas_for_improvement", .arr [.str "Analysis failed"]),
    ("recommendation", .obj [
      ("decision", .str "CONSIDER"),
      ("confidence", .str "LOW"),
      ("reasoning", .str "Automated analysis failed — manual review needed"),
      ("suitable_roles", .arr [.str "Unknown"])]),
    ("detailed_feedback", .obj [
      ("what_stands_out", .str "Analysis failed"),
      ("biggest_concerns", .str "System error"),
      ("growth_potential", .str "Unknown"),
      ("industry_fit", .str "Unknown")])]

/-- Python `round(num / den)` for `den > 0` at exact rational precision:
round half to even, as Python's `round` does.  This models the float
expression `round((rating / 5.0) * 100)` exactly on the decimal ratings the
model is asked for. -/
def pyRound (num den : Int) : Int :=
  if 2 * (num - Int.fdiv num den * den) < den then Int.fdiv num den
  else if den < 2 * (num - Int.fdiv num den * den) then Int.fdiv num den + 1
  else if Int.fdiv num den % 2 == 0 then Int.fdiv num den
  else Int.fdiv num den + 1

/-- `round((parsed.get("overall_rating", 2.5) / 5.0) * 100)` from
`analyze_designer` (line 353): a missing rating defaults to 2.5 (score 50),
booleans count as 0/1 as in Python, and any other non-numeric rating raises
`TypeError` (`none`), which the surrounding `except` turns into the
fallback. -/
def designerDerivedScore (fields : List (String × Json)) : Option Int :=
  match lookupField fields "overall_rating" with
  | none => some 50
  | some (.num m e) => some (pyRound (m * 20) ((10 : Int) ^ e))
  | some (.bool b) => some (if b then 20 else 0)
  | some _ => none

/-- The final-assessment step of `analyzer.analyze_designer` (lines
342–390), with the model calls replaced by their simulated outcomes:
an empty response yields the fallback; any value `_parse_json_from_text`
recovers that is a dict (including the empty dict — there is no truthiness
check here, unlike the dev side) is returned verbatim after filling in a
missing `overall_score` from `overall_rating`; a non-numeric rating or a
non-dict `recommendation` field raises inside the `try`, yielding the
fallback; everything else yields the fallback. -/
def analyze_designer_assessment (attempts : List (Option String)) : Json :=
  if gemini_text 3 attempts == "" then designerFallbackAnalysis
  else
    match parse_json_from_text (gemini_text 3 attempts) with
    | some (.obj fields) =>
      match (if containsKey fields "overall_score" then some fields
             else (designerDerivedScore fields).map
               (fun sc => insertKey fields "overall_score" (.num sc 0))) with
      | none => designerFallbackAnalysis
      | some withScore =>
        match lookupField withScore "recommendation" with
        | none => .obj withScore
        | some (.obj _) => .obj withScore
        | some _ => designerFallbackAnalysis
    | _ => designerFallbackAnalysis

/-- The result dict of `dev_analyzer.analyze_dev_candidate` (lines 422–447). -/
structure AnalyzeResult where
  github_analysis : Option Json
  resume_analysis : Option Json
  evaluation : Option Json
deriving Inhabited

/-- `dev_analyzer.analyze_dev_candidate`: GitHub analysis and resume parsing
are external fetches whose outcomes (`none` = fetch failed / skipped) are
passed in; the evaluation step always produces a dict (never `None`). -/
def analyze_dev_candidate (githubResult resumeResult : Option Json)
    (evalAttempts : List (Option String)) : AnalyzeResult :=
  { github_analysis := githubResult,
    resume_analysis := resumeResult,
    evaluation := some (evaluate_candidate evalAttempts) }

/-! ## `backend/dev_module.py` — roles, candidates, webhook, sheets -/

/-- One candidate dict as built by `_parse_tally_fields` /
`_import_from_sheet` and mutated by `_analyze_candidate_async`. -/
structure DevCandidate where
  submission_id : String
  name : String
  phone : String
  email : String
  resume_url : String
  github_username : String
  linkedin : String
  current_ctc : String
  status : String
  submitted_at : String
  evaluation : Option Json
  github_analysis : Option Json
  resume_analysis : Option Json
deriving Inhabited

/-- One role bucket (`store["roles"][role_id]`); candidates is a dict keyed
by submission id. -/
structure Role where
  name : String
  jd : String
  ctc : String
  positions : Int
  tally_link : String
  tally_form_id : String
  sheet_url : String
  candidates : List (String × DevCandidate)
  created_at : String
deriving Inhabited

/-- Mutate the value stored under key `k` (Python `d[k].field = ...` /
`d[k] = f(d[k])`; entries with other keys are untouched). -/
def modVal {α : Type} (l : List (String × α)) (k : String) (f : α → α) :
    List (String × α) :=
  l.map (fun e => if e.1 == k then (e.1, f e.2) else e)

/-- Distinctness of dict keys (always true of a Python dict). -/
def keysNodup {α : Type} : List (String × α) → Bool
  | [] => true
  | e :: rest => !(rest.any (·.1 == e.1)) && keysNodup rest

/-- Number of entries under key `k` (1 or 0 in a real dict). -/
def countKey {α : Type} (l : List (String × α)) (k : String) : Nat :=
  (l.filter (·.1 == k)).length

/-- All candidates carry their dict key as their `submission_id` field —
true of every insertion the module performs. -/
def wfCands (l : List (String × DevCandidate)) : Bool :=
  l.all (fun e => e.2.submission_id == e.1)

def isSelected (e : String × DevCandidate) : Bool := e.2.status == "selected"

/-- `sum(1 for c in candidates.values() if c.get("status") == "selected")`. -/
def selCount (l : List (String × DevCandidate)) : Nat :=
  (l.filter isSelected).length

/-- The slot count of `update_candidate_status` (lines 181–184): selected
candidates whose dict key differs from the one being updated. -/
def selCountExclKey (l : List (String × DevCandidate)) (cid : String) : Nat :=
  (l.filter (fun e => isSelected e && e.1 != cid)).length

/-- The slot count of `_analyze_candidate_async` (lines 341–343): selected
candidates whose `submission_id` field differs from the one analyzed. -/
def selCountExclSub (l : List (String × DevCandidate)) (cid : String) : Nat :=
  (l.filter (fun e => isSelected e && e.2.submission_id != cid)).length

/-- `candidate["status"] = st` for the candidate under key `cid`. -/
def setStatus (l : List (String × DevCandidate)) (cid st : String) :
    List (String × DevCandidate) :=
  modVal l cid (fun c => { c with status := st })

inductive StatusUpdateResult where
  | candidateNotFound
  | capacityError
  | updated (st : String)
deriving DecidableEq

/-- `update_candidate_status` (dev_module lines 169–192), at the level of one
role: reject `"selected"` when the other selected candidates already fill
`positions`; otherwise write the status.  On rejection the role is returned
unchanged. -/
def update_candidate_status (role : Role) (cid st : String) :
    Role × StatusUpdateResult :=
  match lookupKey role.candidates cid with
  | none => (role, .candidateNotFound)
  | some _ =>
    if st == "selected" &&
        decide (role.positions ≤ (selCountExclKey role.candidates cid : Int)) then
      (role, .capacityError)
    else
      ({ role with candidates := setStatus role.candidates cid st }, .updated st)

/-- The three analysis fields are overwritten only when the new result is
present (`_analyze_candidate_async` lines 328–334). -/
def mergeAnalysis (c : DevCandidate) (r : AnalyzeResult) : DevCandidate :=
  { c with
    github_analysis := match r.github_analysis with
      | some v => some v
      | none => c.github_analysis,
    resume_analysis := match r.resume_analysis with
      | some v => some v
      | none => c.resume_analysis,
    evaluation := match r.evaluation with
      | some v => some v
      | none => c.evaluation }

/-- `score = (result.get("evaluation") or \x7b\x7d).get("overall_score", 50)` and
its use in `score >= 71` / `score <= 40`: `none` = a TypeError/AttributeError
(non-dict truthy evaluation, or non-numeric score) that aborts the status
assignment; booleans compare as 0/1 as in Python. -/
def asyncScore (ev : Option Json) : Option (Int × Nat) :=
  match ev with
  | none => some (50, 0)
  | some j =>
    if !pyTruthy j then some (50, 0)
    else
      match j with
      | .obj fields =>
        match lookupField fields "overall_score" with
        | none => some (50, 0)
        | some (.num m e) => some (m, e)
        | some (.bool b) => some (if b then 1 else 0, 0)
        | some _ => none
      | _ => none

/-- `mant / 10 ^ exp10 ≥ k` for a JSON decimal against a Python int literal. -/
def numGe (m : Int) (e : Nat) (k : Int) : Bool := decide (k * (10 : Int) ^ e ≤ m)

/-- `mant / 10 ^ exp10 ≤ k`. -/
def numLe (m : Int) (e : Nat) (k : Int) : Bool := decide (m ≤ k * (10 : Int) ^ e)

/-- The candidates dict after the field-merge step of
`_analyze_candidate_async` (lines 328–334). -/
def mergedCands (role : Role) (cid : String) (result : AnalyzeResult) :
    List (String × DevCandidate) :=
  modVal role.candidates cid (fun c => mergeAnalysis c result)

/-- `_analyze_candidate_async` (lines 315–356) applied to one role, with the
pipeline's outcome passed as `result`: merge the non-null analysis fields
into the candidate, then assign the status from the score — `selected` is
demoted to `waitlisted` when the other selected candidates already fill
`positions`.  A candidate that no longer exists, or an exception while
reading the score, leaves the status untouched. -/
def analyze_candidate_async (role : Role) (cid : String) (result : AnalyzeResult) :
    Role :=
  match lookupKey role.candidates cid with
  | none => role
  | some _ =>
    match asyncScore result.evaluation with
    | none => { role with candidates := mergedCands role cid result }
    | some (m, e) =>
      if numGe m e 71 then
        if decide (role.positions ≤
            (selCountExclSub (setStatus (mergedCands role cid result) cid "selected") cid : Int)) then
          { role with candidates :=
              setStatus (setStatus (mergedCands role cid result) cid "selected") cid "waitlisted" }
        else
          { role with candidates := setStatus (mergedCands role cid result) cid "selected" }
      else if numLe m e 40 then
        { role with candidates := setStatus (mergedCands role cid result) cid "rejected" }
      else
        { role with candidates := setStatus (mergedCands role cid result) cid "waitlisted" }

/-- One status-affecting call on a role bucket: a manual PUT status update,
or the automatic post-analysis status assignment. -/
inductive StatusStep where
  | manual (cid st : String)
  | auto (cid : String) (result : AnalyzeResult)

def applyStatusStep (role : Role) : StatusStep → Role
  | .manual cid st => (update_candidate_status role cid st).1
  | .auto cid result => analyze_candidate_async role cid result

def applyStatusSteps (role : Role) (steps : List StatusStep) : Role :=
  steps.foldl applyStatusStep role

/-! ### Tally webhook -/

/-- A Tally field value: a plain string, or the file list of a FILE_UPLOAD
field (each file's `url`). -/
inductive TallyValue where
  | vstr (s : String)
  | files (urls : List String)

structure TallyField where
  label : String
  value : TallyValue
  ftype : String

/-- `_parse_tally_fields` (lines 271–312): fuzzy label matching into the
candidate dict; `now` stands for `datetime.now().isoformat()`. -/
def parse_tally_fields (fields : List TallyField) (submission_id now : String) :
    DevCandidate :=
  let init : DevCandidate :=
    { submission_id := submission_id, name := "", phone := "", email := "",
      resume_url := "", github_username := "", linkedin := "", current_ctc := "",
      status := "waitlisted", submitted_at := now,
      evaluation := none, github_analysis := none, resume_analysis := none }
  fields.foldl (fun c f =>
    let label := pyLower f.label
    let asStr : String := match f.value with | .vstr s => s | .files _ => ""
    if strContains label "name" && !strContains label "user" then
      { c with name := asStr }
    else if strContains label "number" || strContains label "phone" then
      { c with phone := asStr }
    else if strContains label "email" then
      { c with email := asStr }
    else if strContains label "resume" || f.ftype == "FILE_UPLOAD" then
      match f.value with
      | .files (u :: _) => { c with resume_url := u }
      | .files [] => c
      | .vstr s => { c with resume_url := s }
    else if strContains label "github" then
      { c with github_username := asStr }
    else if strContains label "linkedin" then
      { c with linkedin := asStr }
    else if strContains label "ctc" || strContains label "salary" then
      { c with current_ctc := asStr }
    else c) init

/-- The webhook payload's relevant parts (`data.formId`, `data.submissionId`,
`data.formName`, `data.fields`). -/
structure WebhookPayload where
  formId : String
  submissionId : String
  formName : Option String
  fields : List TallyField

inductive WebhookResponse where
  | noFields
  | duplicate
  | received (candidateName roleName : String)
deriving DecidableEq

/-- The role-matching cascade of `tally_webhook` (lines 216–233): first role
with the payload's `tally_form_id`, else first role with no form id
configured, else the first role. -/
def resolveRoleEntry (roles : List (String × Role)) (formId : String) :
    Option (String × Role) :=
  match roles.find? (·.2.tally_form_id == formId) with
  | some e => some e
  | none =>
    match roles.find? (·.2.tally_form_id == "") with
    | some e => some e
    | none => roles.head?

/-- The default role `tally_webhook` creates when no role exists at all
(lines 235–247). -/
def defaultWebhookRole (p : WebhookPayload) (now : String) : Role :=
  { name := p.formName.getD "Default Role", jd := "", ctc := "",
    positions := 10, tally_link := "", tally_form_id := p.formId,
    sheet_url := "", candidates := [], created_at := now }

/-- `role["candidates"][submission_id] = candidate`. -/
def roleWithInserted (role : Role) (sid : String) (c : DevCandidate) : Role :=
  { role with candidates := insertKey role.candidates sid c }

/-- `tally_webhook` (lines 197–268) over the roles dict.  `freshId` stands
for the `uuid4` prefix used when no role exists and a default one is
created; `now` for `datetime.now().isoformat()`. -/
def tally_webhook (roles : List (String × Role)) (p : WebhookPayload)
    (freshId now : String) : List (String × Role) × WebhookResponse :=
  if p.fields.isEmpty then (roles, .noFields)
  else
    match resolveRoleEntry roles p.formId with
    | some (rid, role) =>
      if containsKey role.candidates p.submissionId then (roles, .duplicate)
      else
        (modVal roles rid (fun _ => roleWithInserted role p.submissionId
            (parse_tally_fields p.fields p.submissionId now)),
         .received (parse_tally_fields p.fields p.submissionId now).name role.name)
    | none =>
      (roles ++ [(freshId, roleWithInserted (defaultWebhookRole p now) p.submissionId
          (parse_tally_fields p.fields p.submissionId now))],
       .received (parse_tally_fields p.fields p.submissionId now).name
         (defaultWebhookRole p now).name)

/-! ### Google-Sheets import helpers -/

/-- `_fuzzy_get` (lines 392–399): normalize the row's headers
(strip + lower), then return the first truthy value among the alias keys,
stripped; else the default. -/
def fuzzyRowLower (row : List (String × String)) : List (String × String) :=
  row.foldl (fun d e => insertKey d (pyLower (pyStrip e.1)) e.2) []

def fuzzyGo (rowLower : List (String × String)) (dflt : String) :
    List String → String
  | [] => dflt
  | k :: rest =>
    if (lookupKey rowLower (pyLower (pyStrip k))).getD "" != "" then
      pyStrip ((lookupKey rowLower (pyLower (pyStrip k))).getD "")
    else fuzzyGo rowLower dflt rest

def fuzzy_get (row : List (String × String)) (keys : List String)
    (dflt : String) : String :=
  fuzzyGo (fuzzyRowLower row) dflt keys

/-- The email-alias lookup of `_import_from_sheet` (line 462). -/
def sheetEmailOf (row : List (String × String)) : String :=
  fuzzy_get row ["Your email", "your email", "email", "email address", "Email"] ""

/-- Hex digit for `format(..., "x")`. -/
def hexDigit (n : Nat) : Char :=
  if n < 10 then Char.ofNat ('0'.toNat + n) else Char.ofNat ('a'.toNat + (n - 10))

/-- Python `f"\x7bx:08x\x7d"` for `x < 2^32`. -/
def toHex8 (n : Nat) : String :=
  ⟨(List.range 8).map (fun i => hexDigit (n / 16 ^ (7 - i) % 16))⟩

/-- The synthesized sheet identifier of `_import_from_sheet` (line 436):
`f"sheet_\x7bhash((name_val, email_val)) & 0xFFFFFFFF:08x\x7d"`.  `pyHash` is the
process's salted `hash` on pairs of strings — a per-run function, since
CPython salts string hashing per process. -/
def sheetDerivedId (pyHash : String × String → Nat) (nameVal emailVal : String) :
    String :=
  "sheet_" ++ toHex8 (pyHash (nameVal, emailVal) % 2 ^ 32)

/-! ## `backend/server.py` — designer store -/

/-- Python `p.get(k, d)`; `none` models the `AttributeError` raised when `p`
is not a dict. -/
def pyGetD (p : Json) (k : String) (d : Json) : Option Json :=
  match p with
  | .obj fields => some ((lookupField fields k).getD d)
  | _ => none

/-- `p.get("original_data", \x7b\x7d).get("username", "")` from `_merge_profiles`. -/
def usernameOf (p : Json) : Option Json :=
  (pyGetD p "original_data" (.obj [])).bind (fun od => pyGetD od "username" (.str ""))

/-- Insertion keyed by a JSON value (`by_username[uname] = p`). -/
def insertJKey (l : List (Json × Json)) (k v : Json) : List (Json × Json) :=
  match l with
  | [] => [(k, v)]
  | e :: rest => if e.1 == k then (k, v) :: rest else e :: insertJKey rest k v

/-- One loop body of `_merge_profiles`: skip profiles whose username is
falsy, key the rest by username (new data overwrites old wholesale). -/
def mergeProfilesStep (d : List (Json × Json)) (p : Json) :
    Option (List (Json × Json)) :=
  (usernameOf p).map (fun u => if pyTruthy u then insertJKey d u p else d)

/-- `server._merge_profiles` (lines 88–99): build `by_username` over the
existing then the new profiles and return its values; `none` models an
`AttributeError` from a malformed profile. -/
def merge_profiles (existing newProfiles : List Json) : Option (List Json) :=
  ((existing ++ newProfiles).foldlM mergeProfilesStep []).map (·.map (·.2))

/-- One keyword's designer data (`designers_store["keywords"][kw]`). -/
structure KeywordData where
  profiles : List Json
  statuses : List (String × String)
  last_scanned : String
deriving Inhabited

inductive DesignerStatusResult where
  | keywordNotFound
  | invalidStatus
  | ok (msg : String)
deriving DecidableEq

/-- `update_designer_status` (server lines 298–311): 404 on an unknown
keyword, 400 on a status outside the three-value set (store unchanged),
otherwise write the status unconditionally — there is no capacity check. -/
def update_designer_status (keywords : List (String × KeywordData))
    (keyword username status : String) :
    List (String × KeywordData) × DesignerStatusResult :=
  match lookupKey keywords (pyLower (pyStrip keyword)) with
  | none => (keywords, .keywordNotFound)
  | some _ =>
    if !(status == "selected" || status == "waitlisted" || status == "rejected") then
      (keywords, .invalidStatus)
    else
      (modVal keywords (pyLower (pyStrip keyword))
        (fun data => { data with statuses := insertKey data.statuses username status }),
       .ok (username ++ " → " ++ status))

/-! ## Association-list lemmas (dict semantics) -/

theorem mem_modVal {α : Type} {l : List (String × α)} {k : String} {f : α → α}
    {e : String × α} (h : e ∈ modVal l k f) :
    ∃ e0 ∈ l, e = if e0.1 == k then (e0.1, f e0.2) else e0 := by
  simp only [modVal, List.mem_map] at h
  obtain ⟨e0, he0, rfl⟩ := h
  exact ⟨e0, he0, rfl⟩

theorem countKey_modVal {α : Type} (l : List (String × α)) (k k' : String)
    (f : α → α) : countKey (modVal l k f) k' = countKey l k' := by
  induction l with
  | nil => rfl
  | cons e t ih =>
    simp only [modVal, List.map_cons, countKey, List.filter_cons] at ih ⊢
    cases h : (e.1 == k) <;> cases h' : (e.1 == k') <;>
      simp_all [countKey, modVal]

theorem modVal_cons {α : Type} (e : String × α) (t : List (String × α))
    (k : String) (f : α → α) :
    modVal (e :: t) k f = (if e.1 == k then (e.1, f e.2) else e) :: modVal t k f := rfl

theorem modVal_head_fst {α : Type} (e : String × α) (k : String) (f : α → α) :
    (if e.1 == k then (e.1, f e.2) else e).1 = e.1 := by
  cases h : (e.1 == k) <;> simp

theorem any_key_modVal {α : Type} (l : List (String × α)) (k k' : String)
    (f : α → α) : (modVal l k f).any (·.1 == k') = l.any (·.1 == k') := by
  induction l with
  | nil => rfl
  | cons e t ih =>
    rw [modVal_cons, List.any_cons, List.any_cons, modVal_head_fst, ih]

theorem keysNodup_modVal {α : Type} (l : List (String × α)) (k : String)
    (f : α → α) : keysNodup (modVal l k f) = keysNodup l := by
  induction l with
  | nil => rfl
  | cons e t ih =>
    rw [modVal_cons]
    show (!(modVal t k f).any (·.1 == (if e.1 == k then (e.1, f e.2) else e).1)
          && keysNodup (modVal t k f))
        = (!t.any (·.1 == e.1) && keysNodup t)
    rw [modVal_head_fst, any_key_modVal, ih]

theorem lookupKey_modVal {α : Type} (l : List (String × α)) (k : String)
    (f : α → α) : lookupKey (modVal l k f) k = (lookupKey l k).map f := by
  induction l with
  | nil => rfl
  | cons e t ih =>
    simp only [modVal, List.map_cons, lookupKey] at ih ⊢
    cases h : (e.1 == k) <;> simp_all [lookupKey]

theorem lookupKey_of_mem_nodup {α : Type} {l : List (String × α)} {k : String}
    {v : α} (hnd : keysNodup l = true) (hmem : (k, v) ∈ l) :
    lookupKey l k = some v := by
  induction l with
  | nil => simp at hmem
  | cons e t ih =>
    simp only [keysNodup, Bool.and_eq_true, Bool.not_eq_true'] at hnd
    rcases List.mem_cons.mp hmem with h | h
    · subst h; simp [lookupKey]
    · have hk : (e.1 == k) = false := by
        cases h1 : (e.1 == k)
        · rfl
        · exfalso
          have hek : e.1 = k := eq_of_beq h1
          have : t.any (·.1 == e.1) = true :=
            List.any_eq_true.mpr ⟨(k, v), h, by simp [hek]⟩
          simp [this] at hnd
      simp [lookupKey, hk, ih hnd.2 h]

theorem nodup_key_unique {α : Type} {l : List (String × α)} {k : String}
    {a b : α} (hnd : keysNodup l = true) (ha : (k, a) ∈ l) (hb : (k, b) ∈ l) :
    a = b := by
  have h1 := lookupKey_of_mem_nodup hnd ha
  have h2 := lookupKey_of_mem_nodup hnd hb
  rw [h1] at h2
  exact (Option.some.injEq _ _ ▸ h2)

theorem containsKey_insertKey_self {α : Type} (l : List (String × α))
    (k : String) (v : α) : containsKey (insertKey l k v) k = true := by
  induction l with
  | nil => simp [insertKey, containsKey, lookupKey]
  | cons e t ih =>
    simp only [insertKey]
    cases h : (e.1 == k) <;> simp_all [containsKey, lookupKey]

theorem containsKey_cons_false {α : Type} {e : String × α}
    {t : List (String × α)} {k : String} (he : (e.1 == k) = false)
    (h : containsKey (e :: t) k = false) : containsKey t k = false := by
  simp only [containsKey, lookupKey, he] at h
  simpa [containsKey] using h

theorem filter_key_cons_false {α : Type} {e : String × α}
    (t : List (String × α)) {k : String} (he : (e.1 == k) = false) :
    List.filter (fun x => x.1 == k) (e :: t) = List.filter (fun x => x.1 == k) t := by
  simp [List.filter_cons, he]

theorem countKey_eq_zero_of_not_contains {α : Type} {l : List (String × α)}
    {k : String} (h : containsKey l k = false) : countKey l k = 0 := by
  induction l with
  | nil => rfl
  | cons e t ih =>
    cases he : (e.1 == k)
    · unfold countKey
      rw [filter_key_cons_false t he]
      exact ih (containsKey_cons_false he h)
    · simp [containsKey, lookupKey, he] at h

theorem countKey_insertKey_new {α : Type} {l : List (String × α)} {k : String}
    (v : α) (h : containsKey l k = false) :
    countKey (insertKey l k v) k = countKey l k + 1 := by
  induction l with
  | nil => simp [insertKey, countKey, List.filter_cons]
  | cons e t ih =>
    cases he : (e.1 == k)
    · have hi : insertKey (e :: t) k v = e :: insertKey t k v := by
        simp [insertKey, he]
      rw [hi]
      unfold countKey
      rw [filter_key_cons_false (insertKey t k v) he, filter_key_cons_false t he]
      exact ih (containsKey_cons_false he h)
    · simp [containsKey, lookupKey, he] at h

theorem countKey_eq_zero_of_any_false {α : Type} {l : List (String × α)}
    {k : String} (h : l.any (·.1 == k) = false) : countKey l k = 0 := by
  induction l with
  | nil => rfl
  | cons e t ih =>
    simp only [List.any_cons, Bool.or_eq_false_iff] at h
    unfold countKey
    rw [filter_key_cons_false t h.1]
    exact ih h.2

theorem countKey_eq_one_of_contains_nodup {α : Type} {l : List (String × α)}
    {k : String} (hnd : keysNodup l = true) (h : containsKey l k = true) :
    countKey l k = 1 := by
  induction l with
  | nil => simp [containsKey, lookupKey] at h
  | cons e t ih =>
    simp only [keysNodup, Bool.and_eq_true, Bool.not_eq_true'] at hnd
    cases he : (e.1 == k)
    · unfold countKey
      rw [filter_key_cons_false t he]
      exact ih hnd.2 (by
        simp only [containsKey, lookupKey, he] at h
        simpa [containsKey] using h)
    · have hk := eq_of_beq he
      subst hk
      have h0 : countKey t e.1 = 0 := countKey_eq_zero_of_any_false hnd.1
      unfold countKey at h0 ⊢
      have hf : List.filter (fun x => x.1 == e.1) (e :: t)
          = e :: List.filter (fun x => x.1 == e.1) t := by
        simp [List.filter_cons]
      rw [hf, List.length_cons, h0]

/-! ## Selected-count lemmas for C1 -/

theorem wfCands_modVal {l : List (String × DevCandidate)} {k : String}
    {f : DevCandidate → DevCandidate}
    (hf : ∀ c, (f c).submission_id = c.submission_id)
    (h : wfCands l = true) : wfCands (modVal l k f) = true := by
  induction l with
  | nil => rfl
  | cons e t ih =>
    rw [modVal_cons]
    simp only [wfCands, List.all_cons, Bool.and_eq_true] at h ⊢
    refine ⟨?_, ih h.2⟩
    cases hek : (e.1 == k) <;> simp_all [hf e.2]

theorem selCount_modVal_status_preserving {l : List (String × DevCandidate)}
    {k : String} {f : DevCandidate → DevCandidate}
    (hf : ∀ c, (f c).status = c.status) :
    selCount (modVal l k f) = selCount l := by
  induction l with
  | nil => rfl
  | cons e t ih =>
    rw [modVal_cons]
    unfold selCount
    simp only [List.filter_cons]
    have hsel : isSelected (if e.1 == k then (e.1, f e.2) else e) = isSelected e := by
      cases hek : (e.1 == k) <;> simp [isSelected, hf e.2]
    rw [hsel]
    unfold selCount at ih
    cases hs : isSelected e <;> simp [hs] <;> omega

theorem selCountExclKey_modVal (l : List (String × DevCandidate)) (cid : String)
    (f : DevCandidate → DevCandidate) :
    selCountExclKey (modVal l cid f) cid = selCountExclKey l cid := by
  induction l with
  | nil => rfl
  | cons e t ih =>
    rw [modVal_cons]
    unfold selCountExclKey
    simp only [List.filter_cons]
    have hp : (isSelected (if e.1 == cid then (e.1, f e.2) else e)
          && (if e.1 == cid then (e.1, f e.2) else e).1 != cid)
        = (isSelected e && e.1 != cid) := by
      cases hek : (e.1 == cid) <;> simp [isSelected, bne, hek]
    rw [hp]
    unfold selCountExclKey at ih
    cases hq : (isSelected e && e.1 != cid) <;> simp [hq] <;> omega

theorem selCount_le_exclKey_add_countKey (l : List (String × DevCandidate))
    (cid : String) :
    selCount l ≤ selCountExclKey l cid + countKey l cid := by
  induction l with
  | nil => simp [selCount, selCountExclKey, countKey]
  | cons e t ih =>
    unfold selCount selCountExclKey countKey at ih ⊢
    simp only [bne] at ih ⊢
    simp only [List.filter_cons]
    cases hs : isSelected e <;> cases hk : (e.1 == cid) <;>
      simp [hs, hk] <;> omega

theorem selCount_setStatus_le {l : List (String × DevCandidate)} {cid st : String}
    (hst : (st == "selected") = false) :
    selCount (setStatus l cid st) ≤ selCount l := by
  unfold selCount setStatus modVal
  rw [← List.countP_eq_length_filter, ← List.countP_eq_length_filter, List.countP_map]
  apply List.countP_mono_left
  intro e _ hp
  simp only [Function.comp] at hp
  by_cases hek : (e.1 == cid) = true
  · rw [if_pos hek] at hp
    exfalso
    simp [isSelected, hst] at hp
  · rwa [if_neg hek] at hp

theorem setStatus_setStatus (l : List (String × DevCandidate)) (cid s1 s2 : String) :
    setStatus (setStatus l cid s1) cid s2 = setStatus l cid s2 := by
  induction l with
  | nil => rfl
  | cons e t ih =>
    unfold setStatus at ih ⊢
    rw [modVal_cons, modVal_cons, modVal_cons]
    rw [ih]
    congr 1
    cases hek : (e.1 == cid) <;> simp [hek]

theorem selCountExclSub_eq_exclKey {l : List (String × DevCandidate)} {cid : String}
    (hwf : wfCands l = true) :
    selCountExclSub l cid = selCountExclKey l cid := by
  induction l with
  | nil => rfl
  | cons e t ih =>
    simp only [wfCands, List.all_cons, Bool.and_eq_true] at hwf
    unfold selCountExclSub selCountExclKey at ih ⊢
    simp only [List.filter_cons]
    have hsub : e.2.submission_id = e.1 := eq_of_beq hwf.1
    rw [hsub]
    cases hq : (isSelected e && e.1 != cid)
    · simp only [hq, Bool.false_eq_true, if_false]
      exact ih hwf.2
    · simp [hq, ih hwf.2]

/-- The role invariant carried through every status-affecting step. -/
def roleInv (r : Role) : Prop :=
  wfCands r.candidates = true ∧ keysNodup r.candidates = true ∧
    (selCount r.candidates : Int) ≤ r.positions

theorem update_candidate_status_inv {r : Role} (cid st : String)
    (h : roleInv r) :
    roleInv (update_candidate_status r cid st).1 ∧
      (update_candidate_status r cid st).1.positions = r.positions := by
  obtain ⟨hwf, hnd, hsel⟩ := h
  unfold update_candidate_status
  split
  · exact ⟨⟨hwf, hnd, hsel⟩, rfl⟩
  · next c hl =>
    split
    · exact ⟨⟨hwf, hnd, hsel⟩, rfl⟩
    · next hcap =>
      have hcap' : (st == "selected"
          && decide (r.positions ≤ (selCountExclKey r.candidates cid : Int))) = false := by
        simpa using hcap
      refine ⟨⟨?_, ?_, ?_⟩, rfl⟩
      · show wfCands (modVal r.candidates cid (fun c => { c with status := st })) = true
        exact wfCands_modVal (fun c => rfl) hwf
      · show keysNodup (setStatus r.candidates cid st) = true
        rw [setStatus, keysNodup_modVal]; exact hnd
      · show (selCount (setStatus r.candidates cid st) : Int) ≤ r.positions
        cases hst : (st == "selected")
        · have := @selCount_setStatus_le r.candidates cid st hst
          omega
        · rw [hst, Bool.true_and] at hcap'
          have hlt : ¬ (r.positions ≤ (selCountExclKey r.candidates cid : Int)) := by
            simpa using hcap'
          have h1 := selCount_le_exclKey_add_countKey (setStatus r.candidates cid st) cid
          have h2 : selCountExclKey (setStatus r.candidates cid st) cid
              = selCountExclKey r.candidates cid := selCountExclKey_modVal _ _ _
          have h3 : countKey (setStatus r.candidates cid st) cid
              = countKey r.candidates cid := countKey_modVal _ _ _ _
          have h4 : countKey r.candidates cid = 1 :=
            countKey_eq_one_of_contains_nodup hnd (by simp [containsKey, hl])
          rw [h2, h3] at h1
          omega

theorem analyze_candidate_async_inv {r : Role} (cid : String)
    (result : AnalyzeResult) (h : roleInv r) :
    roleInv (analyze_candidate_async r cid result) ∧
      (analyze_candidate_async r cid result).positions = r.positions := by
  obtain ⟨hwf, hnd, hsel⟩ := h
  have hwf1 : wfCands (mergedCands r cid result) = true :=
    wfCands_modVal (fun c => rfl) hwf
  have hnd1 : keysNodup (mergedCands r cid result) = true := by
    show keysNodup (modVal r.candidates cid (fun c => mergeAnalysis c result)) = true
    rw [keysNodup_modVal]; exact hnd
  have hsel1 : selCount (mergedCands r cid result) = selCount r.candidates :=
    selCount_modVal_status_preserving (fun c => rfl)
  have hck1 : countKey (mergedCands r cid result) cid = countKey r.candidates cid :=
    countKey_modVal _ _ _ _
  have hwf2 : wfCands (setStatus (mergedCands r cid result) cid "selected") = true :=
    wfCands_modVal (fun c => rfl) hwf1
  have hnd2 : keysNodup (setStatus (mergedCands r cid result) cid "selected") = true := by
    show keysNodup (modVal (mergedCands r cid result) cid
      (fun c => { c with status := "selected" })) = true
    rw [keysNodup_modVal]; exact hnd1
  unfold analyze_candidate_async
  split
  · exact ⟨⟨hwf, hnd, hsel⟩, rfl⟩
  · next c hl =>
    split
    · exact ⟨⟨hwf1, hnd1, by rw [hsel1]; exact hsel⟩, rfl⟩
    · next m e hsc =>
      split
      · split
        · -- score ≥ 71 but slots full: demoted to waitlisted
          refine ⟨⟨?_, ?_, ?_⟩, rfl⟩
          · show wfCands (modVal (setStatus (mergedCands r cid result) cid "selected")
              cid (fun c => { c with status := "waitlisted" })) = true
            exact wfCands_modVal (fun c => rfl) hwf2
          · show keysNodup (modVal (setStatus (mergedCands r cid result) cid "selected")
              cid (fun c => { c with status := "waitlisted" })) = true
            rw [keysNodup_modVal]; exact hnd2
          · show (selCount (setStatus (setStatus (mergedCands r cid result) cid "selected")
              cid "waitlisted") : Int) ≤ r.positions
            rw [setStatus_setStatus]
            have hle : selCount (setStatus (mergedCands r cid result) cid "waitlisted")
                ≤ selCount (mergedCands r cid result) := selCount_setStatus_le (by rfl)
            rw [hsel1] at hle
            omega
        · next hcap =>
          have hlt : ¬ (r.positions ≤
              (selCountExclSub (setStatus (mergedCands r cid result) cid "selected") cid : Int)) := by
            simpa using hcap
          refine ⟨⟨hwf2, hnd2, ?_⟩, rfl⟩
          show (selCount (setStatus (mergedCands r cid result) cid "selected") : Int) ≤ r.positions
          have h1 := selCount_le_exclKey_add_countKey
            (setStatus (mergedCands r cid result) cid "selected") cid
          have h2 : selCountExclSub (setStatus (mergedCands r cid result) cid "selected") cid
              = selCountExclKey (setStatus (mergedCands r cid result) cid "selected") cid :=
            selCountExclSub_eq_exclKey hwf2
          have h3 : countKey (setStatus (mergedCands r cid result) cid "selected") cid
              = countKey r.candidates cid := by
            show countKey (modVal (mergedCands r cid result) cid
              (fun c => { c with status := "selected" })) cid = countKey r.candidates cid
            rw [countKey_modVal]; exact hck1
          have h4 : countKey r.candidates cid = 1 :=
            countKey_eq_one_of_contains_nodup hnd (by simp [containsKey, hl])
          rw [← h2] at h1
          omega
      · split
        · refine ⟨⟨?_, ?_, ?_⟩, rfl⟩
          · show wfCands (modVal (mergedCands r cid result) cid
              (fun c => { c with status := "rejected" })) = true
            exact wfCands_modVal (fun c => rfl) hwf1
          · show keysNodup (modVal (mergedCands r cid result) cid
              (fun c => { c with status := "rejected" })) = true
            rw [keysNodup_modVal]; exact hnd1
          · show (selCount (setStatus (mergedCands r cid result) cid "rejected") : Int) ≤ r.positions
            have := @selCount_setStatus_le (mergedCands r cid result) cid "rejected" (by rfl)
            rw [hsel1] at this
            omega
        · refine ⟨⟨?_, ?_, ?_⟩, rfl⟩
          · show wfCands (modVal (mergedCands r cid result) cid
              (fun c => { c with status := "waitlisted" })) = true
            exact wfCands_modVal (fun c => rfl) hwf1
          · show keysNodup (modVal (mergedCands r cid result) cid
              (fun c => { c with status := "waitlisted" })) = true
            rw [keysNodup_modVal]; exact hnd1
          · show (selCount (setStatus (mergedCands r cid result) cid "waitlisted") : Int) ≤ r.positions
            have := @selCount_setStatus_le (mergedCands r cid result) cid "waitlisted" (by rfl)
            rw [hsel1] at this
            omega

theorem applyStatusSteps_inv (steps : List StatusStep) (r : Role)
    (h : roleInv r) :
    roleInv (applyStatusSteps r steps) ∧
      (applyStatusSteps r steps).positions = r.positions := by
  induction steps generalizing r with
  | nil => exact ⟨h, rfl⟩
  | cons s rest ih =>
    cases s with
    | manual cid st =>
      obtain ⟨h1, h2⟩ := update_candidate_status_inv cid st h
      obtain ⟨h3, h4⟩ := ih _ h1
      exact ⟨h3, by
        simp only [applyStatusSteps, List.foldl_cons, applyStatusStep] at h4 ⊢
        rw [h4, h2]⟩
    | auto cid result =>
      obtain ⟨h1, h2⟩ := analyze_candidate_async_inv cid result h
      obtain ⟨h3, h4⟩ := ih _ h1
      exact ⟨h3, by
        simp only [applyStatusSteps, List.foldl_cons, applyStatusStep] at h4 ⊢
        rw [h4, h2]⟩

/-! ## Claim C1 -/

/-- C1: in a role bucket whose candidates dict is well formed (each candidate
stores its dict key as its `submission_id`, keys distinct) and currently
within capacity, the number of candidates with status `selected` never
exceeds the role's `positions` after any sequence of manual PUT status
updates and automatic post-analysis status assignments; and a manual status
write that is rejected for capacity returns the role unchanged. -/
theorem c1_selected_capacity_invariant (r : Role) (steps : List StatusStep)
    (hwf : wfCands r.candidates = true) (hnd : keysNodup r.candidates = true)
    (hcap : (selCount r.candidates : Int) ≤ r.positions) :
    (selCount (applyStatusSteps r steps).candidates : Int) ≤ r.positions ∧
    (∀ (r' : Role) (cid st : String),
      (update_candidate_status r' cid st).2 = .capacityError →
      (update_candidate_status r' cid st).1 = r') := by
  constructor
  · obtain ⟨⟨_, _, h3⟩, hp⟩ := applyStatusSteps_inv steps r ⟨hwf, hnd, hcap⟩
    rw [hp] at h3
    exact h3
  · intro r' cid st
    unfold update_candidate_status
    split
    · intro _; rfl
    · split
      · intro _; rfl
      · intro h; exact StatusUpdateResult.noConfusion h

/-- A fresh candidate for the C1 witness scenario. -/
def c1Cand (sid : String) : DevCandidate :=
  { submission_id := sid, name := sid, phone := "", email := "", resume_url := "",
    github_username := "", linkedin := "", current_ctc := "", status := "waitlisted",
    submitted_at := "", evaluation := none, github_analysis := none,
    resume_analysis := none }

/-- A one-position role with two waitlisted candidates. -/
def c1Role : Role :=
  { name := "backend dev", jd := "jd", ctc := "10", positions := 1,
    tally_link := "", tally_form_id := "", sheet_url := "", created_at := "",
    candidates := [("a", c1Cand "a"), ("b", c1Cand "b")] }

/-- Two automatic assignments from scores 90 and 85 and one manual attempt to
select a second candidate. -/
def c1Steps : List StatusStep :=
  [ .auto "a" { github_analysis := none, resume_analysis := none,
                evaluation := some (.obj [("overall_score", .num 90 0)]) },
    .auto "b" { github_analysis := none, resume_analysis := none,
                evaluation := some (.obj [("overall_score", .num 85 0)]) },
    .manual "b" "selected" ]

theorem c1_selected_capacity_invariant_witness :
    (wfCands c1Role.candidates = true ∧ keysNodup c1Role.candidates = true ∧
      (selCount c1Role.candidates : Int) ≤ c1Role.positions) ∧
    ((selCount (applyStatusSteps c1Role c1Steps).candidates : Int) ≤ c1Role.positions ∧
      (∀ (r' : Role) (cid st : String),
        (update_candidate_status r' cid st).2 = .capacityError →
        (update_candidate_status r' cid st).1 = r')) :=
  ⟨⟨by decide, by decide, by decide⟩,
    c1_selected_capacity_invariant c1Role c1Steps (by decide) (by decide) (by decide)⟩

/-! ## Claim C6 -/

/-- The spec's truncated fenced model output: a ```json fence, a newline,
then an object whose last string, array, object and fence are all unclosed. -/
def c6TruncatedOutput : String :=
  "```json\n\x7b\"overall_score\": 72, \"strengths\": [\"fast learner"

/-- C6: on the spec's own example the layered parse-and-repair strategy
recovers nothing.  The repair keeps the dangling opening quote
(`repaired[:last_quote + 1]`), so the repaired text still contains an
unterminated string and every parse attempt fails: the whole extraction
returns `None` instead of an object with `overall_score == 72`. -/
theorem c6_repair_fails_on_spec_example :
    parse_json_from_text c6TruncatedOutput = none ∧
    repair_json "\x7b\"overall_score\": 72, \"strengths\": [\"fast learner" = none ∧
    jsonLoads "\x7b\"overall_score\": 72, \"strengths\": [\"]\x7d" = none :=
  ⟨rfl, rfl, rfl⟩

/-! ## Claim C7 -/

/-- C7: the synthesized sheet identifier depends on the per-process salted
string hash, so two program runs (two different `hash` functions) derive
different identifiers for the same (name, email) row. -/
theorem c7_sheet_id_depends_on_process_hash :
    sheetDerivedId (fun _ => 0) "Alice" "alice@example.com"
      ≠ sheetDerivedId (fun _ => 1) "Alice" "alice@example.com" := by
  decide

/-! ## Claim C4 -/

/-- Field access on a JSON value (`j[k]` when `j` is an object). -/
def jsonGet (j : Json) (k : String) : Option Json :=
  match j with
  | .obj fields => lookupField fields k
  | _ => none

/-- Spec-side predicate (from the claim's words): the evaluation's
`overall_score` lies in [20, 100]. -/
def evalScoreInRangeSpec (j : Json) : Bool :=
  match jsonGet j "overall_score" with
  | some (.num m e) => numGe m e 20 && numLe m e 100
  | _ => false

/-- A syntactically valid model response whose score is out of range. -/
def c4OutOfRangeResponse : String := "\x7b\"overall_score\": 150\x7d"

/-- C4 counterexample: on both evaluation operations — the dev
`evaluate_candidate` and the designer-side `analyze_designer` assessment —
a model response that parses to a dict is returned verbatim with no
validation, so the returned evaluation can carry an `overall_score` outside
[20, 100]. -/
theorem c4_score_range_counterexample :
    evaluate_candidate [some c4OutOfRangeResponse]
      = .obj [("overall_score", .num 150 0)] ∧
    evalScoreInRangeSpec (evaluate_candidate [some c4OutOfRangeResponse]) = false ∧
    analyze_designer_assessment [some c4OutOfRangeResponse]
      = .obj [("overall_score", .num 150 0)] ∧
    evalScoreInRangeSpec (analyze_designer_assessment [some c4OutOfRangeResponse])
      = false :=
  ⟨rfl, rfl, rfl, rfl⟩

/-- C4 (amended): both evaluation operations are total and always return a
JSON object, never raising and never returning null.  Whenever the model
text (after up to three attempts) is empty or does not parse to a usable
dict, each returns exactly its deterministic fallback: the dev fallback has
overall_score 50, 3.0 sub-metric ratings, decision CONSIDER, confidence
LOW; the designer fallback has overall_score 50, 2.5 sub-metric ratings,
decision CONSIDER, confidence LOW.  A parsed dict is returned as-is,
unvalidated — the designer side only fills in a missing `overall_score`
from `overall_rating`. -/
theorem c4_amended_evaluate_total_with_fallback (attempts : List (Option String)) :
    (∃ fields, evaluate_candidate attempts = .obj fields) ∧
    (evaluate_candidate attempts = devFallbackEvaluation ∨
      ∃ fields, dev_parse_json (gemini_text 3 attempts) = some (.obj fields) ∧
        evaluate_candidate attempts = .obj fields) ∧
    (∃ fields, analyze_designer_assessment attempts = .obj fields) ∧
    (analyze_designer_assessment attempts = designerFallbackAnalysis ∨
      ∃ fields, parse_json_from_text (gemini_text 3 attempts) = some (.obj fields) ∧
        ((containsKey fields "overall_score" = true ∧
            analyze_designer_assessment attempts = .obj fields) ∨
          ∃ sc, designerDerivedScore fields = some sc ∧
            analyze_designer_assessment attempts
              = .obj (insertKey fields "overall_score" (.num sc 0)))) ∧
    jsonGet devFallbackEvaluation "overall_score" = some (.num 50 0) ∧
    ((jsonGet devFallbackEvaluation "recommendation").bind
        (fun rcm => jsonGet rcm "decision")) = some (.str "CONSIDER") ∧
    ((jsonGet devFallbackEvaluation "recommendation").bind
        (fun rcm => jsonGet rcm "confidence")) = some (.str "LOW") ∧
    (((jsonGet devFallbackEvaluation "metrics").bind
        (fun ms => jsonGet ms "technical_depth")).bind
        (fun m => jsonGet m "rating")) = some (.num 30 1) ∧
    jsonGet designerFallbackAnalysis "overall_score" = some (.num 50 0) ∧
    ((jsonGet designerFallbackAnalysis "recommendation").bind
        (fun rcm => jsonGet rcm "decision")) = some (.str "CONSIDER") ∧
    ((jsonGet designerFallbackAnalysis "recommendation").bind
        (fun rcm => jsonGet rcm "confidence")) = some (.str "LOW") ∧
    (((jsonGet designerFallbackAnalysis "metrics").bind
        (fun ms => jsonGet ms "design_excellence")).bind
        (fun m => jsonGet m "rating")) = some (.num 25 1) := by
  refine ⟨?_, ?_, ?_, ?_, rfl, rfl, rfl, rfl, rfl, rfl, rfl, rfl⟩
  · unfold evaluate_candidate
    split
    · exact ⟨_, rfl⟩
    · split
      · split
        · exact ⟨_, rfl⟩
        · split
          · exact ⟨_, rfl⟩
          · exact ⟨_, rfl⟩
          · exact ⟨_, rfl⟩
      · exact ⟨_, rfl⟩
  · unfold evaluate_candidate
    split
    · left; rfl
    · split
      · next fields hparse =>
        split
        · left; rfl
        · split
          · right; exact ⟨fields, hparse, rfl⟩
          · right; exact ⟨fields, hparse, rfl⟩
          · left; rfl
      · left; rfl
  · unfold analyze_designer_assessment
    split
    · exact ⟨_, rfl⟩
    · split
      · split
        · exact ⟨_, rfl⟩
        · split
          · exact ⟨_, rfl⟩
          · exact ⟨_, rfl⟩
          · exact ⟨_, rfl⟩
      · exact ⟨_, rfl⟩
  · unfold analyze_designer_assessment
    split
    · left; rfl
    · split
      · next fields hparse =>
        split
        · left; rfl
        · next withScore hfill =>
          have hform : (containsKey fields "overall_score" = true ∧ withScore = fields)
              ∨ ∃ sc, designerDerivedScore fields = some sc ∧
                  withScore = insertKey fields "overall_score" (.num sc 0) := by
            by_cases hc : containsKey fields "overall_score" = true
            · rw [if_pos hc] at hfill
              replace hfill : fields = withScore := Option.some.inj hfill
              exact Or.inl ⟨hc, hfill.symm⟩
            · rw [if_neg hc] at hfill
              obtain ⟨sc, hsc, hins⟩ := Option.map_eq_some'.mp hfill
              exact Or.inr ⟨sc, hsc, hins.symm⟩
          split
          · right
            refine ⟨fields, hparse, ?_⟩
            rcases hform with ⟨hc, hw⟩ | ⟨sc, hsc, hw⟩
            · exact Or.inl ⟨hc, by rw [hw]⟩
            · exact Or.inr ⟨sc, hsc, by rw [hw]⟩
          · right
            refine ⟨fields, hparse, ?_⟩
            rcases hform with ⟨hc, hw⟩ | ⟨sc, hsc, hw⟩
            · exact Or.inl ⟨hc, by rw [hw]⟩
            · exact Or.inr ⟨sc, hsc, by rw [hw]⟩
          · left; rfl
      · left; rfl

/-! ## Claim C2 -/

/-- A stored designer profile with a populated `location`. -/
def profileOldC2 : Json :=
  .obj [("original_data", .obj [("username", .str "dana"), ("name", .str "Dana"),
    ("location", .str "Paris")])]

/-- A newer fetch of the same designer that does not carry `location`. -/
def profileNewC2 : Json :=
  .obj [("original_data", .obj [("username", .str "dana"), ("name", .str "Dana")])]

/-- C2 counterexample: the designer-side merge replaces the stored profile
wholesale by username, so a field populated in the old record and missing in
the new record does not keep its old value — `location` regresses from
`"Paris"` to absent. -/
theorem c2_merge_counterexample :
    merge_profiles [profileOldC2] [profileNewC2] = some [profileNewC2] ∧
    (jsonGet profileOldC2 "original_data").bind (fun od => jsonGet od "location")
      = some (.str "Paris") ∧
    (jsonGet profileNewC2 "original_data").bind (fun od => jsonGet od "location")
      = none :=
  ⟨rfl, rfl, rfl⟩

/-- C2 (amended): the dev-candidate merge of analysis results is a
field-level union — a non-null new value wins and a null one preserves the
old value, for each of the three analysis fields — while the designer-side
`_merge_profiles` is keyed by username and replaces the whole old profile
with the new one, losing old populated fields the new profile omits. -/
theorem c2_amended_merge_semantics :
    (∀ (c : DevCandidate) (res : AnalyzeResult),
      (res.github_analysis = none →
        (mergeAnalysis c res).github_analysis = c.github_analysis) ∧
      (∀ v, res.github_analysis = some v →
        (mergeAnalysis c res).github_analysis = some v) ∧
      (res.resume_analysis = none →
        (mergeAnalysis c res).resume_analysis = c.resume_analysis) ∧
      (∀ v, res.resume_analysis = some v →
        (mergeAnalysis c res).resume_analysis = some v) ∧
      (res.evaluation = none → (mergeAnalysis c res).evaluation = c.evaluation) ∧
      (∀ v, res.evaluation = some v → (mergeAnalysis c res).evaluation = some v)) ∧
    merge_profiles [profileOldC2] [profileNewC2] = some [profileNewC2] := by
  constructor
  · intro c res
    refine ⟨fun h => ?_, fun v h => ?_, fun h => ?_, fun v h => ?_,
      fun h => ?_, fun v h => ?_⟩ <;> simp [mergeAnalysis, h]
  · rfl

/-- Candidate and result used to instantiate the C2 merge semantics. -/
def c2Cand : DevCandidate :=
  { submission_id := "s9", name := "Ana", phone := "", email := "a@x.io",
    resume_url := "", github_username := "ana", linkedin := "", current_ctc := "",
    status := "waitlisted", submitted_at := "",
    evaluation := some (.obj [("overall_score", .num 77 0)]),
    github_analysis := some (.obj [("total_stars", .num 7 0)]),
    resume_analysis := none }

def c2Res : AnalyzeResult :=
  { github_analysis := none, resume_analysis := some (.obj [("skills", .arr [])]),
    evaluation := some devFallbackEvaluation }

theorem c2_amended_merge_semantics_witness :
    (mergeAnalysis c2Cand c2Res).github_analysis = c2Cand.github_analysis ∧
    (mergeAnalysis c2Cand c2Res).resume_analysis = some (.obj [("skills", .arr [])]) ∧
    merge_profiles [profileOldC2] [profileNewC2] = some [profileNewC2] :=
  ⟨(c2_amended_merge_semantics.1 c2Cand c2Res).1 rfl,
   (c2_amended_merge_semantics.1 c2Cand c2Res).2.2.2.1 (.obj [("skills", .arr [])]) rfl,
   c2_amended_merge_semantics.2⟩

/-! ## Claim C3 -/

/-- A previously successful evaluation (score 90). -/
def c3GoodEval : Json :=
  .obj [("overall_score", .num 90 0),
        ("recommendation", .obj [("decision", .str "HIRE")])]

/-- A candidate whose evaluation and GitHub signal already succeeded. -/
def c3Cand : DevCandidate :=
  { submission_id := "s1", name := "Maya", phone := "", email := "m@x.io",
    resume_url := "https://cv.example/m.pdf", github_username := "maya",
    linkedin := "", current_ctc := "", status := "selected", submitted_at := "",
    evaluation := some c3GoodEval,
    github_analysis := some (.obj [("total_stars", .num 7 0)]),
    resume_analysis := none }

/-- C3 counterexample: a re-run in which every fetch fails and the
evaluation step fails (three failed model attempts, so it can only produce
the deterministic fallback) still hands back `evaluation = fallback`, which
the merge then writes over the previously successful score-90 evaluation. -/
theorem c3_failed_rerun_counterexample :
    (analyze_dev_candidate none none [none, none, none]).evaluation
      = some devFallbackEvaluation ∧
    (mergeAnalysis c3Cand (analyze_dev_candidate none none [none, none, none])).evaluation
      = some devFallbackEvaluation ∧
    c3Cand.evaluation = some c3GoodEval ∧
    jsonGet devFallbackEvaluation "overall_score" = some (.num 50 0) ∧
    jsonGet c3GoodEval "overall_score" = some (.num 90 0) ∧
    devFallbackEvaluation ≠ c3GoodEval := by
  refine ⟨rfl, rfl, rfl, rfl, rfl, ?_⟩
  intro h
  have h2 : jsonGet devFallbackEvaluation "overall_score"
      = jsonGet c3GoodEval "overall_score" := by rw [h]
  rw [show jsonGet devFallbackEvaluation "overall_score" = some (.num 50 0) from rfl,
      show jsonGet c3GoodEval "overall_score" = some (.num 90 0) from rfl] at h2
  simp only [Option.some.injEq, Json.num.injEq] at h2
  omega

/-- C3 (amended): a re-run preserves the signal fields whose fetch failed
(`None` results never overwrite), but the evaluation field is always
replaced by the re-run's evaluation, because `evaluate_candidate` never
returns `None` — on total failure it returns the fallback, which overwrites
a previously successful evaluation. -/
theorem c3_amended_partial_rerun_preservation (g rdata : Option Json)
    (attempts : List (Option String)) (c : DevCandidate) :
    (g = none → (mergeAnalysis c (analyze_dev_candidate g rdata attempts)).github_analysis
        = c.github_analysis) ∧
    (rdata = none → (mergeAnalysis c (analyze_dev_candidate g rdata attempts)).resume_analysis
        = c.resume_analysis) ∧
    (mergeAnalysis c (analyze_dev_candidate g rdata attempts)).evaluation
      = some (evaluate_candidate attempts) := by
  refine ⟨fun h => ?_, fun h => ?_, ?_⟩
  · simp [mergeAnalysis, analyze_dev_candidate, h]
  · simp [mergeAnalysis, analyze_dev_candidate, h]
  · simp [mergeAnalysis, analyze_dev_candidate]

theorem c3_amended_partial_rerun_preservation_witness :
    (mergeAnalysis c3Cand (analyze_dev_candidate none none [none, none, none])).github_analysis
      = c3Cand.github_analysis ∧
    (mergeAnalysis c3Cand (analyze_dev_candidate none none [none, none, none])).resume_analysis
      = c3Cand.resume_analysis ∧
    (mergeAnalysis c3Cand (analyze_dev_candidate none none [none, none, none])).evaluation
      = some (evaluate_candidate [none, none, none]) :=
  ⟨(c3_amended_partial_rerun_preservation none none [none, none, none] c3Cand).1 rfl,
   (c3_amended_partial_rerun_preservation none none [none, none, none] c3Cand).2.1 rfl,
   (c3_amended_partial_rerun_preservation none none [none, none, none] c3Cand).2.2⟩

/-! ## Claim C8 -/

/-- C8: header lookup is case-insensitive and whitespace-tolerant over the
multi-alias table — the email value under spreadsheet header `"Your Email "`
resolves exactly as under `"email"` or `"Email Address"`. -/
theorem c8_fuzzy_email_header (v : String) :
    sheetEmailOf [("Your Email ", v)] = sheetEmailOf [("email", v)] ∧
    sheetEmailOf [("Your Email ", v)] = sheetEmailOf [("Email Address", v)] := by
  cases v with
  | mk data =>
    cases data with
    | nil => exact ⟨rfl, rfl⟩
    | cons c cs => exact ⟨rfl, rfl⟩

/-! ## Claim C9 -/

theorem mem_insertJKey {l : List (Json × Json)} {k v : Json} {e : Json × Json}
    (h : e ∈ insertJKey l k v) : e ∈ l ∨ e = (k, v) := by
  induction l with
  | nil =>
    simp only [insertJKey, List.mem_singleton] at h
    right; exact h
  | cons e0 t ih =>
    simp only [insertJKey] at h
    by_cases hk : (e0.1 == k) = true
    · rw [if_pos hk] at h
      rcases List.mem_cons.mp h with h | h
      · right; exact h
      · left; exact List.mem_cons_of_mem _ h
    · rw [if_neg hk] at h
      rcases List.mem_cons.mp h with h | h
      · left; rw [h]; exact List.mem_cons_self _ _
      · rcases ih h with h | h
        · left; exact List.mem_cons_of_mem _ h
        · right; exact h

/-- Every entry of the `by_username` dict built by `_merge_profiles` holds a
profile with a truthy username. -/
theorem mergeFold_values {l : List Json} {acc d : List (Json × Json)}
    (hacc : ∀ e ∈ acc, ∃ u, usernameOf e.2 = some u ∧ pyTruthy u = true)
    (h : l.foldlM mergeProfilesStep acc = some d) :
    ∀ e ∈ d, ∃ u, usernameOf e.2 = some u ∧ pyTruthy u = true := by
  induction l generalizing acc with
  | nil =>
    simp only [List.foldlM_nil] at h
    cases h
    exact hacc
  | cons p t ih =>
    simp only [List.foldlM_cons] at h
    cases hu : usernameOf p with
    | none =>
      rw [show mergeProfilesStep acc p = none by
        simp [mergeProfilesStep, hu]] at h
      exact absurd h (by simp)
    | some u =>
      rw [show mergeProfilesStep acc p
          = some (if pyTruthy u then insertJKey acc u p else acc) by
        simp [mergeProfilesStep, hu]] at h
      replace h : t.foldlM mergeProfilesStep
          (if pyTruthy u then insertJKey acc u p else acc) = some d := h
      by_cases ht : pyTruthy u = true
      · rw [if_pos ht] at h
        refine ih ?_ h
        intro e he
        rcases mem_insertJKey he with hmem | heq
        · exact hacc e hmem
        · rw [heq]
          exact ⟨u, hu, ht⟩
      · rw [if_neg ht] at h
        exact ih hacc h

/-- A stored designer profile whose `original_data` has no username. -/
def c9NoUsernameProfile : Json :=
  .obj [("original_data", .obj [("name", .str "Ghost")])]

/-- C9: `_merge_profiles` is keyed solely on the username inside
`original_data` — every profile in a merged result has a truthy username, so
any existing or new profile whose username is empty or missing is silently
dropped; in particular merging an existing username-less profile with an
empty fetch deletes the stored record. -/
theorem c9_merge_keyed_on_username (ex nw res : List Json)
    (h : merge_profiles ex nw = some res) :
    (∀ p ∈ res, ∃ u, usernameOf p = some u ∧ pyTruthy u = true) ∧
    merge_profiles [c9NoUsernameProfile] [] = some [] := by
  refine ⟨?_, rfl⟩
  intro p hp
  unfold merge_profiles at h
  cases hf : (ex ++ nw).foldlM mergeProfilesStep [] with
  | none => rw [hf] at h; exact absurd h (by simp)
  | some d =>
    rw [hf] at h
    replace h : some (d.map (·.2)) = some res := h
    injection h with h
    rw [← h] at hp
    obtain ⟨e, hed, hpe⟩ := List.mem_map.mp hp
    rw [← hpe]
    exact mergeFold_values (by simp) hf e hed

/-- A stored designer profile with a username, for the C9 witness. -/
def c9WithUsernameProfile : Json :=
  .obj [("original_data", .obj [("username", .str "ghost")])]

theorem c9_merge_keyed_on_username_witness :
    (∃ u, usernameOf c9WithUsernameProfile = some u ∧ pyTruthy u = true) ∧
    merge_profiles [c9NoUsernameProfile] [] = some [] :=
  ⟨(c9_merge_keyed_on_username [c9WithUsernameProfile] [] [c9WithUsernameProfile]
      rfl).1 c9WithUsernameProfile (List.mem_singleton.mpr rfl),
   (c9_merge_keyed_on_username [c9WithUsernameProfile] [] [c9WithUsernameProfile]
      rfl).2⟩

/-! ## Claim C10 -/

/-- C10: for an existing keyword, the designer status update accepts each of
the three statuses unconditionally — in particular `selected` always
succeeds, with no capacity check — and rejects any other status with a 400
response, leaving the store unchanged. -/
theorem c10_designer_status_no_capacity_check
    (keywords : List (String × KeywordData)) (keyword username status : String)
    (data : KeywordData)
    (hkw : lookupKey keywords (pyLower (pyStrip keyword)) = some data) :
    ((status = "selected" ∨ status = "waitlisted" ∨ status = "rejected") →
      update_designer_status keywords keyword username status
        = (modVal keywords (pyLower (pyStrip keyword))
            (fun d => { d with statuses := insertKey d.statuses username status }),
           .ok (username ++ " → " ++ status))) ∧
    ((status ≠ "selected" ∧ status ≠ "waitlisted" ∧ status ≠ "rejected") →
      update_designer_status keywords keyword username status
        = (keywords, .invalidStatus)) := by
  unfold update_designer_status
  rw [hkw]
  constructor
  · intro hs
    have hb : (status == "selected" || status == "waitlisted"
        || status == "rejected") = true := by
      rcases hs with h | h | h <;> simp [h]
    show (if !(status == "selected" || status == "waitlisted" || status == "rejected")
        then (keywords, DesignerStatusResult.invalidStatus)
        else (modVal keywords (pyLower (pyStrip keyword))
            (fun d => { d with statuses := insertKey d.statuses username status }),
          DesignerStatusResult.ok (username ++ " → " ++ status)))
      = (modVal keywords (pyLower (pyStrip keyword))
            (fun d => { d with statuses := insertKey d.statuses username status }),
          DesignerStatusResult.ok (username ++ " → " ++ status))
    rw [hb]
    simp
  · intro hs
    obtain ⟨h1, h2, h3⟩ := hs
    have hb : (status == "selected" || status == "waitlisted"
        || status == "rejected") = false := by
      simp [h1, h2, h3]
    show (if !(status == "selected" || status == "waitlisted" || status == "rejected")
        then (keywords, DesignerStatusResult.invalidStatus)
        else (modVal keywords (pyLower (pyStrip keyword))
            (fun d => { d with statuses := insertKey d.statuses username status }),
          DesignerStatusResult.ok (username ++ " → " ++ status)))
      = (keywords, DesignerStatusResult.invalidStatus)
    rw [hb]
    simp

/-- Keyword data with two designers already selected, for the C10 witness. -/
def c10Data : KeywordData :=
  { profiles := [], statuses := [("u1", "selected"), ("u2", "selected")],
    last_scanned := "" }

theorem c10_designer_status_no_capacity_check_witness :
    update_designer_status [("app", c10Data)] "app" "u3" "selected"
      = (modVal [("app", c10Data)] (pyLower (pyStrip "app"))
          (fun d => { d with statuses := insertKey d.statuses "u3" "selected" }),
         .ok ("u3" ++ " → " ++ "selected")) ∧
    update_designer_status [("app", c10Data)] "app" "u3" "banana"
      = ([("app", c10Data)], .invalidStatus) :=
  ⟨(c10_designer_status_no_capacity_check [("app", c10Data)] "app" "u3" "selected"
      c10Data rfl).1 (Or.inl rfl),
   (c10_designer_status_no_capacity_check [("app", c10Data)] "app" "u3" "banana"
      c10Data rfl).2 ⟨by decide, by decide, by decide⟩⟩

/-! ## Claim C5 -/

theorem resolveRoleEntry_mem {roles : List (String × Role)} {fid : String}
    {e : String × Role} (h : resolveRoleEntry roles fid = some e) : e ∈ roles := by
  unfold resolveRoleEntry at h
  split at h
  · next e0 hf =>
    cases h
    exact List.mem_of_find?_eq_some hf
  · split at h
    · next e0 hf =>
      cases h
      exact List.mem_of_find?_eq_some hf
    · cases roles with
      | nil => cases h
      | cons a t =>
        replace h : some a = some e := h
        cases h
        exact List.mem_cons_self _ _

theorem modVal_const_value {α : Type} {l : List (String × α)} {k : String}
    {w v : α} (h : (k, v) ∈ modVal l k (fun _ => w)) : v = w := by
  obtain ⟨e0, he0, heq⟩ := mem_modVal h
  by_cases hk : (e0.1 == k) = true
  · rw [if_pos hk] at heq
    have := congrArg Prod.snd heq
    simpa using this
  · rw [if_neg hk] at heq
    exfalso
    apply hk
    have h1 : e0.1 = k := (congrArg Prod.fst heq).symm
    rw [h1]
    exact beq_self_eq_true k

/-- The candidates dict of the role stored under `rid`. -/
def roleCandidatesAt (roles : List (String × Role)) (rid : String) :
    List (String × DevCandidate) :=
  ((lookupKey roles rid).map Role.candidates).getD []

/-- C5: when two webhook deliveries carry the same submission id and resolve
to the same role bucket, the second call responds `duplicate` (not an
error), leaves the whole store exactly as the first call left it, and the
bucket holds exactly one candidate record under that submission id. -/
theorem c5_duplicate_webhook_idempotent
    (roles : List (String × Role)) (p1 p2 : WebhookPayload)
    (fresh1 now1 fresh2 now2 rid : String) (role0 role1 : Role)
    (hndr : keysNodup roles = true)
    (hndc : keysNodup role0.candidates = true)
    (hf1 : p1.fields ≠ []) (hf2 : p2.fields ≠ [])
    (hsid : p2.submissionId = p1.submissionId)
    (h1 : resolveRoleEntry roles p1.formId = some (rid, role0))
    (h2 : resolveRoleEntry (tally_webhook roles p1 fresh1 now1).1 p2.formId
        = some (rid, role1)) :
    (tally_webhook (tally_webhook roles p1 fresh1 now1).1 p2 fresh2 now2).2
        = .duplicate ∧
    (tally_webhook (tally_webhook roles p1 fresh1 now1).1 p2 fresh2 now2).1
        = (tally_webhook roles p1 fresh1 now1).1 ∧
    countKey (roleCandidatesAt (tally_webhook roles p1 fresh1 now1).1 rid)
        p1.submissionId = 1 := by
  have hfe1 : p1.fields.isEmpty = false := by
    cases hp : p1.fields with
    | nil => exact absurd hp hf1
    | cons a t => rfl
  have hfe2 : p2.fields.isEmpty = false := by
    cases hp : p2.fields with
    | nil => exact absurd hp hf2
    | cons a t => rfl
  have hred1 : tally_webhook roles p1 fresh1 now1
      = if containsKey role0.candidates p1.submissionId
        then (roles, WebhookResponse.duplicate)
        else (modVal roles rid (fun _ => roleWithInserted role0 p1.submissionId
            (parse_tally_fields p1.fields p1.submissionId now1)),
          WebhookResponse.received
            (parse_tally_fields p1.fields p1.submissionId now1).name role0.name) := by
    unfold tally_webhook
    rw [hfe1, h1]
    rfl
  by_cases hdup : containsKey role0.candidates p1.submissionId = true
  · -- the id was already present before the first delivery
    rw [if_pos hdup] at hred1
    have hs1 : (tally_webhook roles p1 fresh1 now1).1 = roles := by rw [hred1]
    rw [hs1] at h2 ⊢
    have hmem1 : (rid, role1) ∈ roles := resolveRoleEntry_mem h2
    have hmem0 : (rid, role0) ∈ roles := resolveRoleEntry_mem h1
    have hrole : role1 = role0 := nodup_key_unique hndr hmem1 hmem0
    have hred2 : tally_webhook roles p2 fresh2 now2
        = (roles, WebhookResponse.duplicate) := by
      unfold tally_webhook
      rw [hfe2, h2, hrole]
      show (if containsKey role0.candidates p2.submissionId = true
          then (roles, WebhookResponse.duplicate)
          else (modVal roles rid (fun _ => roleWithInserted role0 p2.submissionId
              (parse_tally_fields p2.fields p2.submissionId now2)),
            WebhookResponse.received
              (parse_tally_fields p2.fields p2.submissionId now2).name role0.name))
        = (roles, WebhookResponse.duplicate)
      rw [hsid, if_pos hdup]
    refine ⟨by rw [hred2], by rw [hred2], ?_⟩
    have hlk : lookupKey roles rid = some role0 := lookupKey_of_mem_nodup hndr hmem0
    unfold roleCandidatesAt
    rw [hlk]
    exact countKey_eq_one_of_contains_nodup hndc hdup
  · -- the first delivery inserted the candidate
    have hdup' : containsKey role0.candidates p1.submissionId = false := by
      simpa using hdup
    rw [if_neg (by simp [hdup'])] at hred1
    have hs1 : (tally_webhook roles p1 fresh1 now1).1
        = modVal roles rid (fun _ => roleWithInserted role0 p1.submissionId
            (parse_tally_fields p1.fields p1.submissionId now1)) := by
      rw [hred1]
    rw [hs1] at h2 ⊢
    have hmem1 : (rid, role1) ∈ modVal roles rid
        (fun _ => roleWithInserted role0 p1.submissionId
          (parse_tally_fields p1.fields p1.submissionId now1)) :=
      resolveRoleEntry_mem h2
    have hrole : role1 = roleWithInserted role0 p1.submissionId
        (parse_tally_fields p1.fields p1.submissionId now1) :=
      modVal_const_value hmem1
    have hcont : containsKey role1.candidates p2.submissionId = true := by
      rw [hrole, hsid]
      exact containsKey_insertKey_self _ _ _
    have hred2 : tally_webhook
        (modVal roles rid (fun _ => roleWithInserted role0 p1.submissionId
          (parse_tally_fields p1.fields p1.submissionId now1)))
        p2 fresh2 now2
        = (modVal roles rid (fun _ => roleWithInserted role0 p1.submissionId
            (parse_tally_fields p1.fields p1.submissionId now1)),
          WebhookResponse.duplicate) := by
      unfold tally_webhook
      rw [hfe2, h2]
      show (if containsKey role1.candidates p2.submissionId = true
          then (modVal roles rid (fun _ => roleWithInserted role0 p1.submissionId
              (parse_tally_fields p1.fields p1.submissionId now1)),
            WebhookResponse.duplicate)
          else (modVal (modVal roles rid (fun _ => roleWithInserted role0 p1.submissionId
                (parse_tally_fields p1.fields p1.submissionId now1)))
              rid (fun _ => roleWithInserted role1 p2.submissionId
                (parse_tally_fields p2.fields p2.submissionId now2)),
            WebhookResponse.received
              (parse_tally_fields p2.fields p2.submissionId now2).name role1.name))
        = (modVal roles rid (fun _ => roleWithInserted role0 p1.submissionId
            (parse_tally_fields p1.fields p1.submissionId now1)),
          WebhookResponse.duplicate)
      rw [if_pos hcont]
    refine ⟨by rw [hred2], by rw [hred2], ?_⟩
    have hmem0 : (rid, role0) ∈ roles := resolveRoleEntry_mem h1
    have hlk : lookupKey roles rid = some role0 := lookupKey_of_mem_nodup hndr hmem0
    unfold roleCandidatesAt
    rw [lookupKey_modVal, hlk]
    show countKey (insertKey role0.candidates p1.submissionId
      (parse_tally_fields p1.fields p1.submissionId now1)) p1.submissionId = 1
    rw [countKey_insertKey_new _ hdup', countKey_eq_zero_of_not_contains hdup']

/-- Concrete store, payloads and inserted role for the C5 witness. -/
def c5Role : Role :=
  { name := "backend dev", jd := "jd", ctc := "10", positions := 2,
    tally_link := "", tally_form_id := "f1", sheet_url := "", created_at := "",
    candidates := [] }

def c5P1 : WebhookPayload :=
  { formId := "f1", submissionId := "sub1", formName := some "Dev Form",
    fields := [⟨"Email", .vstr "z@x.io", "INPUT_EMAIL"⟩] }

def c5P2 : WebhookPayload :=
  { formId := "f1", submissionId := "sub1", formName := some "Dev Form",
    fields := [⟨"Email", .vstr "z@x.io", "INPUT_EMAIL"⟩] }

def c5Role1 : Role :=
  roleWithInserted c5Role "sub1" (parse_tally_fields c5P1.fields "sub1" "t1")

theorem c5_duplicate_webhook_idempotent_witness :
    (tally_webhook (tally_webhook [("r1", c5Role)] c5P1 "a1" "t1").1 c5P2 "a2" "t2").2
        = .duplicate ∧
    (tally_webhook (tally_webhook [("r1", c5Role)] c5P1 "a1" "t1").1 c5P2 "a2" "t2").1
        = (tally_webhook [("r1", c5Role)] c5P1 "a1" "t1").1 ∧
    countKey (roleCandidatesAt (tally_webhook [("r1", c5Role)] c5P1 "a1" "t1").1 "r1")
        c5P1.submissionId = 1 :=
  c5_duplicate_webhook_idempotent [("r1", c5Role)] c5P1 c5P2 "a1" "t1" "a2" "t2"
    "r1" c5Role c5Role1 (by decide) (by decide) (List.cons_ne_nil _ _)
    (List.cons_ne_nil _ _) rfl rfl rfl

end TalentLens
